import Mathlib

/-!
Verification of the bitburner-scripts automation repository.

This file shallowly embeds the data model and the pure logic of the
repository's scripts (`darknet.js`, `darknet-scan.js`, `darknet-helpers.js`,
`ipvgo.js`, `corporation.js`, `corp-helpers.js`) and proves or refutes the
frozen claims about them.

Number model: JavaScript floating-point arithmetic is embedded as exact
arithmetic — `ℚ` where the code only uses field operations and comparisons,
and `ℝ` (with `Real.rpow` / `Real.sqrt` for `Math.pow` / `Math.sqrt`) where
the code uses transcendental functions.  JS truthiness on numbers (`x || y`)
is embedded as a zero test, and `a ?? b` / optional fields as `Option`.
-/

/-! ## darknet-helpers.js -/

/-- The fifteen password-solver routines of `darknet-helpers.js`, by name.
Only their identity matters for the claims; their bodies drive the game API. -/
inductive Solver where
  | zeroLogon | simplePin | wordList | caesar | vigenere | base64
  | hexadecimal | binary | rot13 | reverse | atbash | morseCode
  | dateFormat | phoneWords | leetSpeak
  deriving DecidableEq, Repr

/-- `PASSWORD_SOLVERS` object literal of `darknet-helpers.js` (lines 6-22):
model ids mapped to solver functions, in source order. -/
def PASSWORD_SOLVERS : List (String × Solver) :=
  [("ZeroLogon", .zeroLogon), ("SimplePin", .simplePin), ("WordList", .wordList),
   ("Caesar", .caesar), ("Vigenere", .vigenere), ("Base64", .base64),
   ("Hexadecimal", .hexadecimal), ("Binary", .binary), ("ROT13", .rot13),
   ("Reverse", .reverse), ("Atbash", .atbash), ("MorseCode", .morseCode),
   ("DateFormat", .dateFormat), ("PhoneWords", .phoneWords), ("LeetSpeak", .leetSpeak)]

/-- `getDarknetPasswordSolver(modelId)`: `PASSWORD_SOLVERS[modelId] || null`. -/
def getDarknetPasswordSolver (modelId : String) : Option Solver :=
  (PASSWORD_SOLVERS.find? (fun p => p.1 == modelId)).map (·.2)

/-- `getAllModelIds()`: `Object.keys(PASSWORD_SOLVERS)`. -/
def getAllModelIds : List String := PASSWORD_SOLVERS.map (·.1)

/-- The slice of a darknet server-info record that `estimateCrackDifficulty`
reads (`serverInfo.modelId`). -/
structure DnServerInfo where
  modelId : String

/-- `easyModels` list inside `estimateCrackDifficulty` (line 364). -/
def easyModels : List String := ["ZeroLogon", "Base64", "ROT13", "Reverse", "Atbash"]

/-- `mediumModels` list inside `estimateCrackDifficulty` (line 365). -/
def mediumModels : List String := ["SimplePin", "Caesar", "Binary", "Hexadecimal", "MorseCode"]

/-- `hardModels` list inside `estimateCrackDifficulty` (line 366). -/
def hardModels : List String := ["WordList", "Vigenere", "PhoneWords", "LeetSpeak", "DateFormat"]

/-- `estimateCrackDifficulty(serverInfo)` of `darknet-helpers.js` (363-372). -/
def estimateCrackDifficulty (serverInfo : DnServerInfo) : String :=
  if easyModels.contains serverInfo.modelId then "easy"
  else if mediumModels.contains serverInfo.modelId then "medium"
  else if hardModels.contains serverInfo.modelId then "hard"
  else "unknown"

/-- C9: `estimateCrackDifficulty` answers `'unknown'` exactly on the model ids
`getDarknetPasswordSolver` has no solver for, and the easy/medium/hard lists
are a permutation of (hence exactly partition) the fifteen solver model ids. -/
theorem estimateCrackDifficulty_unknown_iff_no_solver :
    (∀ si : DnServerInfo,
      estimateCrackDifficulty si = "unknown" ↔ getDarknetPasswordSolver si.modelId = none) ∧
    (easyModels ++ mediumModels ++ hardModels).Perm getAllModelIds := by
  constructor
  · intro si
    obtain ⟨m⟩ := si
    by_cases h1 : "ZeroLogon" = m
    · subst h1; decide
    by_cases h2 : "SimplePin" = m
    · subst h2; decide
    by_cases h3 : "WordList" = m
    · subst h3; decide
    by_cases h4 : "Caesar" = m
    · subst h4; decide
    by_cases h5 : "Vigenere" = m
    · subst h5; decide
    by_cases h6 : "Base64" = m
    · subst h6; decide
    by_cases h7 : "Hexadecimal" = m
    · subst h7; decide
    by_cases h8 : "Binary" = m
    · subst h8; decide
    by_cases h9 : "ROT13" = m
    · subst h9; decide
    by_cases h10 : "Reverse" = m
    · subst h10; decide
    by_cases h11 : "Atbash" = m
    · subst h11; decide
    by_cases h12 : "MorseCode" = m
    · subst h12; decide
    by_cases h13 : "DateFormat" = m
    · subst h13; decide
    by_cases h14 : "PhoneWords" = m
    · subst h14; decide
    by_cases h15 : "LeetSpeak" = m
    · subst h15; decide
    have hleft : estimateCrackDifficulty ⟨m⟩ = "unknown" := by
      simp only [estimateCrackDifficulty, easyModels, mediumModels, hardModels,
        List.contains_eq_any_beq, List.any_cons, List.any_nil, beq_iff_eq]
      simp [Ne.symm h1, Ne.symm h2, Ne.symm h3, Ne.symm h4, Ne.symm h5, Ne.symm h6,
        Ne.symm h7, Ne.symm h8, Ne.symm h9, Ne.symm h10, Ne.symm h11, Ne.symm h12,
        Ne.symm h13, Ne.symm h14, Ne.symm h15]
    have hright : getDarknetPasswordSolver m = none := by
      rw [getDarknetPasswordSolver, Option.map_eq_none', List.find?_eq_none]
      intro x hx
      fin_cases hx <;> simp only [beq_iff_eq] <;> assumption
    rw [hleft, hright]
    simp
  · decide

/-! ## corp-helpers.js: industry data -/

/-- Boost-material exponents of an industry (`boostFactors`). -/
structure BoostFactors where
  realEstate : ℚ
  hardware : ℚ
  robots : ℚ
  aiCores : ℚ
  deriving DecidableEq, Repr

/-- One entry of the `INDUSTRIES` object of `corp-helpers.js` (lines 16-57). -/
structure Industry where
  name : String
  makesProducts : Bool
  inputMaterials : List (String × ℚ)
  outputMaterials : List String
  boostFactors : BoostFactors
  scienceFactor : ℚ
  advertisingFactor : ℚ
  deriving DecidableEq, Repr

/-- `INDUSTRIES` of `corp-helpers.js` (lines 16-57): property lookup on the
object literal, `undefined` for other keys. -/
def INDUSTRIES (key : String) : Option Industry :=
  if key = "Agriculture" then some
      { name := "Agriculture", makesProducts := false
        inputMaterials := [("Water", 0.5), ("Chemicals", 0.2)]
        outputMaterials := ["Plants", "Food"]
        boostFactors := { realEstate := 0.72, hardware := 0.2, robots := 0.3, aiCores := 0.3 }
        scienceFactor := 0.5, advertisingFactor := 0.04 }
  else if key = "Chemical" then some
      { name := "Chemical", makesProducts := false
        inputMaterials := [("Plants", 1), ("Water", 0.5)]
        outputMaterials := ["Chemicals"]
        boostFactors := { realEstate := 0.25, hardware := 0.2, robots := 0.25, aiCores := 0.2 }
        scienceFactor := 0.75, advertisingFactor := 0.07 }
  else if key = "Tobacco" then some
      { name := "Tobacco", makesProducts := true
        inputMaterials := [("Plants", 1)]
        outputMaterials := []
        boostFactors := { realEstate := 0.15, hardware := 0.15, robots := 0.25, aiCores := 0.15 }
        scienceFactor := 0.75, advertisingFactor := 0.2 }
  else if key = "Water" then some
      { name := "Water Utilities", makesProducts := false
        inputMaterials := [("Hardware", 0.1)]
        outputMaterials := ["Water"]
        boostFactors := { realEstate := 0.5, hardware := 0.4, robots := 0.4, aiCores := 0.4 }
        scienceFactor := 0.5, advertisingFactor := 0.08 }
  else none

/-- `MATERIAL_SIZES` of `corp-helpers.js` (lines 63-78).  The JS object yields
`undefined` for unknown keys; every key the scripts look up is in the table,
and the embedding returns 0 for the unreachable unknown-key case. -/
def MATERIAL_SIZES (key : String) : ℚ :=
  if key = "Real Estate" then 0.005
  else if key = "Hardware" then 0.06
  else if key = "Robots" then 0.5
  else if key = "AI Cores" then 0.1
  else if key = "Water" then 0.05
  else if key = "Plants" then 0.05
  else if key = "Food" then 0.03
  else if key = "Chemicals" then 0.05
  else if key = "Ore" then 0.01
  else if key = "Minerals" then 0.04
  else if key = "Metal" then 0.1
  else if key = "Drugs" then 0.02
  else 0

/-! ## corp-helpers.js: investment logic (C5) -/

/-- The slice of the game's investment offer that `shouldAcceptInvestment`
reads (`offer.funds`). -/
structure InvestmentOffer where
  funds : ℚ
  deriving DecidableEq, Repr

/-- `getMinimumInvestmentOffer(round)` of `corp-helpers.js` (527-537):
`minimums[round] || 0`. -/
def getMinimumInvestmentOffer (round : Nat) : ℚ :=
  match round with
  | 1 => 500e6
  | 2 => 2e9
  | 3 => 5e9
  | 4 => 50e9
  | _ => 0

/-- `shouldAcceptInvestment(offer, round, customMinimum = 0, currentFunds = null)`
of `corp-helpers.js` (550-560).  A missing offer is `none`. -/
def shouldAcceptInvestment (offer : Option InvestmentOffer) (round : Nat)
    (customMinimum : ℚ) (currentFunds : Option ℚ) : Bool :=
  match offer with
  | none => false
  | some o =>
    if o.funds ≤ 0 then false
    else if (match currentFunds with | some f => decide (f < 0) | none => false) then true
    else
      let minimum := if customMinimum > 0 then customMinimum else getMinimumInvestmentOffer round
      decide (o.funds ≥ minimum)

/-- C5: with the default custom minimum 0 and unknown current funds, an offer
is accepted in rounds 1-4 exactly when it exists, its funds are strictly
positive, and its funds reach `getMinimumInvestmentOffer` for the round —
whose values are 500e6, 2e9, 5e9 and 50e9. -/
theorem shouldAcceptInvestment_default_iff (round : Nat)
    (hr : round = 1 ∨ round = 2 ∨ round = 3 ∨ round = 4)
    (offer : Option InvestmentOffer) :
    (shouldAcceptInvestment offer round 0 none = true ↔
      ∃ o, offer = some o ∧ 0 < o.funds ∧ getMinimumInvestmentOffer round ≤ o.funds) ∧
    getMinimumInvestmentOffer 1 = 500e6 ∧ getMinimumInvestmentOffer 2 = 2e9 ∧
    getMinimumInvestmentOffer 3 = 5e9 ∧ getMinimumInvestmentOffer 4 = 50e9 := by
  refine ⟨?_, by norm_num [getMinimumInvestmentOffer]⟩
  cases offer with
  | none => simp [shouldAcceptInvestment]
  | some o =>
    have hmin : (0 : ℚ) < getMinimumInvestmentOffer round := by
      rcases hr with h | h | h | h <;> subst h <;> norm_num [getMinimumInvestmentOffer]
    constructor
    · intro h
      by_cases hf : o.funds ≤ 0
      · rw [shouldAcceptInvestment] at h
        simp [hf] at h
      · push_neg at hf
        refine ⟨o, rfl, hf, ?_⟩
        rw [shouldAcceptInvestment] at h
        simp [not_le.mpr hf] at h
        exact h
    · rintro ⟨o', ho', hpos, hge⟩
      cases ho'
      rw [shouldAcceptInvestment]
      simp [not_le.mpr hpos, hge]

/-- Witness for C5 at round 1 with a 600e6 offer. -/
theorem shouldAcceptInvestment_default_iff_witness :
    ((1 : Nat) = 1 ∨ (1 : Nat) = 2 ∨ (1 : Nat) = 3 ∨ (1 : Nat) = 4) ∧
    ((shouldAcceptInvestment (some ⟨600e6⟩) 1 0 none = true ↔
      ∃ o, (some (InvestmentOffer.mk 600e6)) = some o ∧ 0 < o.funds ∧
        getMinimumInvestmentOffer 1 ≤ o.funds) ∧
    getMinimumInvestmentOffer 1 = 500e6 ∧ getMinimumInvestmentOffer 2 = 2e9 ∧
    getMinimumInvestmentOffer 3 = 5e9 ∧ getMinimumInvestmentOffer 4 = 50e9) :=
  ⟨Or.inl rfl, shouldAcceptInvestment_default_iff 1 (Or.inl rfl) (some ⟨600e6⟩)⟩

/-! ## corp-helpers.js: export dilution (C10) -/

/-- Result record of `checkExportDilution`. -/
structure DilutionResult where
  wouldDilute : Bool
  newQuality : ℚ
  qualityChange : ℚ
  deriving DecidableEq, Repr

/-- `checkExportDilution(destQuality, destStored, srcQuality, srcAmount)` of
`corp-helpers.js` (744-759). -/
def checkExportDilution (destQuality destStored srcQuality srcAmount : ℚ) : DilutionResult :=
  if destStored = 0 then
    { wouldDilute := false, newQuality := srcQuality, qualityChange := srcQuality }
  else
    let newQuality := max 0.1
      ((destQuality * destStored + srcQuality * srcAmount) / (destStored + srcAmount))
    { wouldDilute := decide (srcQuality < destQuality)
      newQuality := newQuality
      qualityChange := newQuality - destQuality }

/-- `calculateMaxExportWithoutDilution(destQuality, destStored, srcQuality,
minQuality)` of `corp-helpers.js` (879-896).  The JS `Infinity` return is
embedded as `none`. -/
def calculateMaxExportWithoutDilution (destQuality destStored srcQuality minQuality : ℚ) :
    Option ℚ :=
  if srcQuality ≥ minQuality then none
  else if destQuality ≤ minQuality then some 0
  else some (destStored * (destQuality - minQuality) / (minQuality - srcQuality))

/-- C10: under `0 < destStored`, `0 ≤ srcQuality < minQuality < destQuality`
and `0.1 ≤ minQuality`, the computed maximum export amount exists, exporting
exactly it brings the destination's weighted-average quality to exactly the
floor `minQuality`, and exporting any smaller nonnegative amount keeps the
quality strictly above the floor. -/
theorem calculateMaxExportWithoutDilution_exact (destQuality destStored srcQuality minQuality : ℚ)
    (hS : 0 < destStored) (h0 : 0 ≤ srcQuality) (hsm : srcQuality < minQuality)
    (hmd : minQuality < destQuality) (hfloor : 0.1 ≤ minQuality) :
    ∃ amt, calculateMaxExportWithoutDilution destQuality destStored srcQuality minQuality
        = some amt ∧
      (checkExportDilution destQuality destStored srcQuality amt).newQuality = minQuality ∧
      ∀ amt', 0 ≤ amt' → amt' < amt →
        minQuality < (checkExportDilution destQuality destStored srcQuality amt').newQuality := by
  have hd : (0 : ℚ) < minQuality - srcQuality := by linarith
  have hq : (0 : ℚ) < destQuality - minQuality := by linarith
  refine ⟨destStored * (destQuality - minQuality) / (minQuality - srcQuality), ?_, ?_, ?_⟩
  · rw [calculateMaxExportWithoutDilution, if_neg (by linarith), if_neg (by linarith)]
  · have hamt : 0 < destStored * (destQuality - minQuality) / (minQuality - srcQuality) :=
      div_pos (mul_pos hS hq) hd
    rw [checkExportDilution, if_neg (by linarith)]
    have hden : destStored + destStored * (destQuality - minQuality) / (minQuality - srcQuality)
        ≠ 0 := by positivity
    have hratio : (destQuality * destStored +
        srcQuality * (destStored * (destQuality - minQuality) / (minQuality - srcQuality))) /
        (destStored + destStored * (destQuality - minQuality) / (minQuality - srcQuality))
        = minQuality := by
      rw [div_eq_iff hden]
      field_simp
      ring
    simp only [hratio]
    exact max_eq_right hfloor
  · intro amt' h0' hlt
    rw [checkExportDilution, if_neg (by linarith)]
    have hden' : (0 : ℚ) < destStored + amt' := by linarith
    have hnum : minQuality * (destStored + amt')
        < destQuality * destStored + srcQuality * amt' := by
      have hmul : amt' * (minQuality - srcQuality) < destStored * (destQuality - minQuality) := by
        calc amt' * (minQuality - srcQuality)
            < destStored * (destQuality - minQuality) / (minQuality - srcQuality) *
              (minQuality - srcQuality) := by
              exact mul_lt_mul_of_pos_right hlt hd
          _ = destStored * (destQuality - minQuality) := by field_simp
      nlinarith
    have : minQuality < (destQuality * destStored + srcQuality * amt') / (destStored + amt') :=
      (lt_div_iff hden').mpr hnum
    exact lt_max_of_lt_right this

/-- Witness for C10 at destQuality 10, destStored 2, srcQuality 1, minQuality 5
(maximum export amount 2.5). -/
theorem calculateMaxExportWithoutDilution_exact_witness :
    (0 : ℚ) < 2 ∧ (0 : ℚ) ≤ 1 ∧ (1 : ℚ) < 5 ∧ (5 : ℚ) < 10 ∧ (0.1 : ℚ) ≤ 5 ∧
    (∃ amt, calculateMaxExportWithoutDilution 10 2 1 5 = some amt ∧
      (checkExportDilution 10 2 1 amt).newQuality = 5 ∧
      ∀ amt', 0 ≤ amt' → amt' < amt →
        (5 : ℚ) < (checkExportDilution 10 2 1 amt').newQuality) :=
  ⟨by norm_num, by norm_num, by norm_num, by norm_num, by norm_num,
    calculateMaxExportWithoutDilution_exact 10 2 1 5 (by norm_num) (by norm_num)
      (by norm_num) (by norm_num) (by norm_num)⟩

/-! ## corp-helpers.js: warehouse space budget (C4) -/

/-- `SECONDS_PER_MARKET_CYCLE` constant of `corp-helpers.js` (line 83). -/
def SECONDS_PER_MARKET_CYCLE : ℚ := 10

/-- The record returned by `calculateWarehouseSpaceBudget`. -/
structure WarehouseBudget where
  warehouseSize : ℚ
  boostSpace : ℚ
  inputBuffer : ℚ
  productionBuffer : ℚ
  netSpaceChangePerCycle : ℚ
  utilizationTarget : ℚ
  maxInputMaterials : ℚ
  deriving DecidableEq, Repr

/-- `calculateWarehouseSpaceBudget(industryType, warehouseSize, productionRate)`
of `corp-helpers.js` (109-154). -/
def calculateWarehouseSpaceBudget (industryType : String) (warehouseSize productionRate : ℚ) :
    Option WarehouseBudget :=
  match INDUSTRIES industryType with
  | none => none
  | some industry =>
    let cycleProduction := productionRate * SECONDS_PER_MARKET_CYCLE
    let inputSpacePerCycle := industry.inputMaterials.foldl
      (fun acc mr => acc + MATERIAL_SIZES mr.1 * mr.2 * cycleProduction) 0
    let outputSpacePerCycle := industry.outputMaterials.foldl
      (fun acc mat => acc + MATERIAL_SIZES mat * cycleProduction) 0
    let netSpaceChange := outputSpacePerCycle - inputSpacePerCycle
    let productionBuffer := max 0 (netSpaceChange * 3)
    let inputBuffer := inputSpacePerCycle * 2
    let reservedForProduction := productionBuffer + inputBuffer
    let boostSpace := max 0 ((warehouseSize - reservedForProduction) * 0.9)
    some
      { warehouseSize := warehouseSize
        boostSpace := boostSpace
        inputBuffer := inputBuffer
        productionBuffer := productionBuffer
        netSpaceChangePerCycle := netSpaceChange
        utilizationTarget := 0.8
        maxInputMaterials := inputSpacePerCycle * 2 }

/-- Every input-material ratio of an `INDUSTRIES` entry, weighted by its
material size, is nonnegative. -/
theorem INDUSTRIES_input_nonneg (key : String) (ind : Industry)
    (h : INDUSTRIES key = some ind) :
    ∀ mr ∈ ind.inputMaterials, 0 ≤ MATERIAL_SIZES mr.1 * mr.2 := by
  rw [INDUSTRIES] at h
  split_ifs at h <;> cases h <;> intro mr hmr <;> fin_cases hmr <;>
    simp [MATERIAL_SIZES] <;> norm_num

/-- The input-space fold of `calculateWarehouseSpaceBudget` stays nonnegative
when every weighted ratio and the cycle production are nonnegative. -/
theorem foldl_inputSpace_nonneg (c : ℚ) (hc : 0 ≤ c) :
    ∀ (l : List (String × ℚ)), (∀ mr ∈ l, 0 ≤ MATERIAL_SIZES mr.1 * mr.2) →
    ∀ init : ℚ, 0 ≤ init →
    0 ≤ l.foldl (fun acc mr => acc + MATERIAL_SIZES mr.1 * mr.2 * c) init := by
  intro l
  induction l with
  | nil =>
    intro _ init h0
    simpa using h0
  | cons hd tl ih =>
    intro hl init h0
    simp only [List.foldl_cons]
    refine ih (fun mr hmr => hl mr (List.mem_cons_of_mem _ hmr))
      (init + MATERIAL_SIZES hd.1 * hd.2 * c) ?_
    have hhd : 0 ≤ MATERIAL_SIZES hd.1 * hd.2 := hl hd (by simp)
    nlinarith

/-- Arithmetic core of C4: allocating `max 0 ((W - (PB + IB)) * 0.9)` on top
of buffers `IB + PB ≤ W` stays within `W`. -/
theorem warehouse_total_fit (W IB PB : ℚ) (hIB : 0 ≤ IB) (hPB : 0 ≤ PB)
    (hfit : IB + PB ≤ W) :
    (max 0 ((W - (PB + IB)) * 0.9)) + IB + PB ≤ W := by
  rcases le_total ((W - (PB + IB)) * 0.9) 0 with h | h
  · rw [max_eq_left h]
    linarith
  · rw [max_eq_right h]
    nlinarith

/-- C4: for every key of `INDUSTRIES` and nonnegative warehouse size and
production rate, the returned budget has nonnegative `boostSpace`,
`inputBuffer` and `productionBuffer`, and whenever the two buffers fit in the
warehouse, the total allocation fits as well. -/
theorem calculateWarehouseSpaceBudget_fits (industryType : String)
    (warehouseSize productionRate : ℚ) (b : WarehouseBudget)
    (hW : 0 ≤ warehouseSize) (hP : 0 ≤ productionRate)
    (hb : calculateWarehouseSpaceBudget industryType warehouseSize productionRate = some b) :
    0 ≤ b.boostSpace ∧ 0 ≤ b.inputBuffer ∧ 0 ≤ b.productionBuffer ∧
    (b.inputBuffer + b.productionBuffer ≤ warehouseSize →
      b.boostSpace + b.inputBuffer + b.productionBuffer ≤ warehouseSize) := by
  rw [calculateWarehouseSpaceBudget] at hb
  cases hind : INDUSTRIES industryType with
  | none =>
    rw [hind] at hb
    exact absurd hb (by simp)
  | some industry =>
    rw [hind] at hb
    simp only [Option.some.injEq] at hb
    subst hb
    have hcyc : (0 : ℚ) ≤ productionRate * SECONDS_PER_MARKET_CYCLE :=
      mul_nonneg hP (by norm_num [SECONDS_PER_MARKET_CYCLE])
    have key := INDUSTRIES_input_nonneg industryType industry hind
    have hinput : 0 ≤ industry.inputMaterials.foldl
        (fun acc mr => acc + MATERIAL_SIZES mr.1 * mr.2 *
          (productionRate * SECONDS_PER_MARKET_CYCLE)) 0 :=
      foldl_inputSpace_nonneg (productionRate * SECONDS_PER_MARKET_CYCLE) hcyc
        industry.inputMaterials key 0 le_rfl
    refine ⟨le_max_left 0 _, mul_nonneg hinput (by norm_num), le_max_left 0 _, ?_⟩
    intro hfit
    exact warehouse_total_fit warehouseSize _ _
      (mul_nonneg hinput (by norm_num)) (le_max_left 0 _) hfit

/-- Witness for C4: the Agriculture industry with warehouse size 100 and
production rate 10. -/
theorem calculateWarehouseSpaceBudget_fits_witness :
    (0 : ℚ) ≤ 100 ∧ (0 : ℚ) ≤ 10 ∧
    calculateWarehouseSpaceBudget "Agriculture" 100 10 = some
      { warehouseSize := 100, boostSpace := 71.55, inputBuffer := 7, productionBuffer := 13.5,
        netSpaceChangePerCycle := 4.5, utilizationTarget := 0.8, maxInputMaterials := 7 } ∧
    (0 ≤ (71.55 : ℚ) ∧ 0 ≤ (7 : ℚ) ∧ 0 ≤ (13.5 : ℚ) ∧
      ((7 : ℚ) + 13.5 ≤ 100 → (71.55 : ℚ) + 7 + 13.5 ≤ 100)) := by
  have hb : calculateWarehouseSpaceBudget "Agriculture" 100 10 = some
      { warehouseSize := 100, boostSpace := 71.55, inputBuffer := 7, productionBuffer := 13.5,
        netSpaceChangePerCycle := 4.5, utilizationTarget := 0.8, maxInputMaterials := 7 } := by
    simp only [calculateWarehouseSpaceBudget, INDUSTRIES]
    norm_num
    simp [MATERIAL_SIZES, SECONDS_PER_MARKET_CYCLE, List.foldl]
    norm_num [max_eq_right, WarehouseBudget.mk.injEq]
  refine ⟨by norm_num, by norm_num, hb, ?_⟩
  exact calculateWarehouseSpaceBudget_fits "Agriculture" 100 10
    { warehouseSize := 100, boostSpace := 71.55, inputBuffer := 7, productionBuffer := 13.5,
      netSpaceChangePerCycle := 4.5, utilizationTarget := 0.8, maxInputMaterials := 7 }
    (by norm_num) (by norm_num) hb

/-! ## C8: the duplicated production-multiplier formula

`darknet.js` carries its own copy of the `INDUSTRIES` table (three industries)
and of the production-multiplier formula (`calculateDivisionProductionMultiplier`),
next to the canonical ones in `corp-helpers.js`.  `Math.pow` is abstracted as a
function parameter `powF`, so the equivalence holds for any interpretation of
powers. -/

/-- `INDUSTRIES` object of `darknet.js` (lines 457-485): the three-industry
copy kept by the darknet script. -/
def INDUSTRIES_darknet (key : String) : Option Industry :=
  if key = "Agriculture" then some
      { name := "Agriculture", makesProducts := false
        inputMaterials := [("Water", 0.5), ("Chemicals", 0.2)]
        outputMaterials := ["Plants", "Food"]
        boostFactors := { realEstate := 0.72, hardware := 0.2, robots := 0.3, aiCores := 0.3 }
        scienceFactor := 0.5, advertisingFactor := 0.04 }
  else if key = "Chemical" then some
      { name := "Chemical", makesProducts := false
        inputMaterials := [("Plants", 1), ("Water", 0.5)]
        outputMaterials := ["Chemicals"]
        boostFactors := { realEstate := 0.25, hardware := 0.2, robots := 0.25, aiCores := 0.2 }
        scienceFactor := 0.75, advertisingFactor := 0.07 }
  else if key = "Tobacco" then some
      { name := "Tobacco", makesProducts := true
        inputMaterials := [("Plants", 1)]
        outputMaterials := []
        boostFactors := { realEstate := 0.15, hardware := 0.15, robots := 0.25, aiCores := 0.15 }
        scienceFactor := 0.75, advertisingFactor := 0.2 }
  else none

/-- A map of boost-material quantities (`boostMaterials` object): JS property
lookup, `undefined` for missing keys.  `boostMaterials[k] || 0` is
`(m k).getD 0` (a stored zero and a missing key both give 0). -/
abbrev BoostMap := String → Option ℚ

/-- `calculateProductionMultiplier(boostMaterials, industryType)` of
`corp-helpers.js` (218-237), with `Math.pow` abstracted as `powF`. -/
def calculateProductionMultiplier (powF : ℚ → ℚ → ℚ) (boostMaterials : BoostMap)
    (industryType : String) : ℚ :=
  match INDUSTRIES industryType with
  | none => 1
  | some industry =>
    let factors := industry.boostFactors
    let realEstate := (boostMaterials "Real Estate").getD 0
    let hardware := (boostMaterials "Hardware").getD 0
    let robots := (boostMaterials "Robots").getD 0
    let aiCores := (boostMaterials "AI Cores").getD 0
    let cityMult :=
      powF (0.002 * realEstate + 1) factors.realEstate *
      powF (0.002 * hardware + 1) factors.hardware *
      powF (0.002 * robots + 1) factors.robots *
      powF (0.002 * aiCores + 1) factors.aiCores
    powF cityMult 0.73

/-- `calculateDivisionProductionMultiplier(boostMaterials, industry)` of
`darknet.js` (540-555), with `Math.pow` abstracted as `powF`. -/
def calculateDivisionProductionMultiplier (powF : ℚ → ℚ → ℚ) (boostMaterials : BoostMap)
    (industry : String) : ℚ :=
  match INDUSTRIES_darknet industry with
  | none => 1
  | some ind =>
    let factors := ind.boostFactors
    let realEstate := (boostMaterials "Real Estate").getD 0
    let hardware := (boostMaterials "Hardware").getD 0
    let robots := (boostMaterials "Robots").getD 0
    let aiCores := (boostMaterials "AI Cores").getD 0
    let cityMult :=
      powF (0.002 * realEstate + 1) factors.realEstate *
      powF (0.002 * hardware + 1) factors.hardware *
      powF (0.002 * robots + 1) factors.robots *
      powF (0.002 * aiCores + 1) factors.aiCores
    powF cityMult 0.73

/-- C8: on the three shared industries, the darknet copy of the
production-multiplier formula agrees with the corp-helpers one for every
power interpretation and every boost-material map. -/
theorem calculateDivisionProductionMultiplier_eq (powF : ℚ → ℚ → ℚ)
    (boostMaterials : BoostMap) (industry : String)
    (h : industry = "Agriculture" ∨ industry = "Chemical" ∨ industry = "Tobacco") :
    calculateDivisionProductionMultiplier powF boostMaterials industry =
      calculateProductionMultiplier powF boostMaterials industry := by
  rcases h with h | h | h <;> subst h <;> rfl

/-- Witness for C8 at Agriculture with an additive power stand-in and a
small boost map. -/
theorem calculateDivisionProductionMultiplier_eq_witness :
    ((("Agriculture" : String) = "Agriculture" ∨ ("Agriculture" : String) = "Chemical" ∨
      ("Agriculture" : String) = "Tobacco")) ∧
    calculateDivisionProductionMultiplier (fun a b => a + b)
        (fun k => if k = "Robots" then some 500 else none) "Agriculture" =
      calculateProductionMultiplier (fun a b => a + b)
        (fun k => if k = "Robots" then some 500 else none) "Agriculture" :=
  ⟨Or.inl rfl, calculateDivisionProductionMultiplier_eq (fun a b => a + b)
    (fun k => if k = "Robots" then some 500 else none) "Agriculture" (Or.inl rfl)⟩

/-! ## C3: password persistence in darknet.js / darknet-scan.js

The file system is `DnFS`: path ↦ parsed content of the passwords JSON file
(`none` for a missing or unparsable file — `loadPasswords` catches both).
`Map.set` of JS replaces the value of an existing key in place and appends a
new key. -/

/-- Path literal `/data/darknet-passwords.txt` used by `savePasswords`,
`loadPasswords` (darknet.js 80-98) and darknet-scan.js (line 45). -/
def darknetPasswordsFile : String := "/data/darknet-passwords.txt"

/-- File-system slice seen by the password persistence code. -/
abbrev DnFS := String → Option (List (String × String))

/-- The empty file system: no previous run has written anything. -/
def fsEmpty : DnFS := fun _ => none

/-- JS `Map.prototype.set` on an association list with unique keys:
replace the entry of an existing key, append a new one. -/
def mapSet (m : List (String × String)) (k v : String) : List (String × String) :=
  if m.any (fun p => p.1 == k) then m.map (fun p => if p.1 == k then (k, v) else p)
  else m ++ [(k, v)]

/-- `DarknetState.loadPasswords` (darknet.js 80-93): read and JSON-parse
`/data/darknet-passwords.txt` and `Map.set` every entry; a missing or invalid
file yields the empty map (the `catch` branch). -/
def loadPasswords (fs : DnFS) : List (String × String) :=
  match fs darknetPasswordsFile with
  | none => []
  | some entries => entries.foldl (fun m hp => mapSet m hp.1 hp.2) []

/-- The `knownPasswords` component of the `DarknetState` constructor
(darknet.js 67-78): a fresh map populated by `loadPasswords`. -/
def darknetStateInitPasswords (fs : DnFS) : List (String × String) :=
  loadPasswords fs

/-- `DarknetState.savePasswords` (darknet.js 95-98): serialize
`knownPasswords` and write it to `/data/darknet-passwords.txt`. -/
def savePasswords (known : List (String × String)) (fs : DnFS) : DnFS :=
  fun p => if p = darknetPasswordsFile then some known else fs p

/-- `DarknetState.addPassword` (darknet.js 112-115): set the password and
immediately persist the map. -/
def addPassword (known : List (String × String)) (fs : DnFS) (hostname password : String) :
    List (String × String) × DnFS :=
  let known' := mapSet known hostname password
  (known', savePasswords known' fs)

/-- `DarknetState.getPassword` (darknet.js 117-119): `Map.get`. -/
def getPassword (known : List (String × String)) (hostname : String) : Option String :=
  (known.find? (fun p => p.1 == hostname)).map (·.2)

/-- `loadPasswords` of darknet-scan.js (51-57): `new Map(Object.entries(JSON.parse(...)))`,
empty on a missing or invalid file. -/
def scanLoadPasswords (fs : DnFS) : List (String × String) :=
  match fs darknetPasswordsFile with
  | none => []
  | some entries => entries.foldl (fun m hp => mapSet m hp.1 hp.2) []

/-- C3 counterexample: the set of passwords known at startup DOES depend on
files written by previous runs.  A first run starting from an empty file
system learns and saves one password; a second run starting from the file
system the first run left behind knows it, while a second run on the
untouched file system knows nothing. -/
theorem darknet_passwords_persist_counterexample :
    darknetStateInitPasswords
        (addPassword (darknetStateInitPasswords fsEmpty) fsEmpty "alpha" "hunter2").2 ≠
      darknetStateInitPasswords fsEmpty := by
  decide

/-- C3 amended: darknet.js is a (file-backed) persistence mechanism for
passwords: a password learned via `addPassword` in a run started from a fresh
state is saved to `/data/darknet-passwords.txt`, and both the next
`DarknetState` construction and darknet-scan.js's `loadPasswords` recover it
at startup, whatever else the file system holds. -/
theorem darknet_passwords_roundtrip (fs : DnFS) (hostname password : String) :
    getPassword
        (darknetStateInitPasswords
          (savePasswords (addPassword (darknetStateInitPasswords fsEmpty) fsEmpty
            hostname password).1 fs)) hostname = some password ∧
    getPassword
        (scanLoadPasswords
          (savePasswords (addPassword (darknetStateInitPasswords fsEmpty) fsEmpty
            hostname password).1 fs)) hostname = some password := by
  constructor <;>
    simp [darknetStateInitPasswords, loadPasswords, scanLoadPasswords, savePasswords,
      addPassword, mapSet, getPassword, fsEmpty, List.find?]

/-! ## C7: the DarkscapeNavigator.exe guard in darknet.js and darknet-scan.js

Effects emitted by `main` before (and instead of) its main logic.  `mainBody`
marks entry into the code past the guard — the orchestration loop of
darknet.js (where every `ns.dnet` call lives) or the scan-and-render body of
darknet-scan.js. -/

/-- Observable effects of the startup section of the two darknet `main`s. -/
inductive Eff where
  | tail
  | disableLogs
  | logError (msg : String)
  | logInfo (msg : String)
  | fileRead (path : String)
  | dnet (op : String)
  | mainBody
  deriving DecidableEq, Repr

/-- Is this effect an error print? -/
def Eff.isError : Eff → Bool
  | .logError _ => true
  | _ => false

/-- Is this effect a darknet (`ns.dnet`) operation? -/
def Eff.isDnet : Eff → Bool
  | .dnet _ => true
  | _ => false

/-- Is this effect the entry into the main logic? -/
def Eff.isMainBody : Eff → Bool
  | .mainBody => true
  | _ => false

/-- The slice of darknet.js options read before the guard (`options.tail`). -/
structure DarknetOptions where
  tail : Bool

/-- The darknet-scan.js options (`hide-stats`), read before the guard but
without observable effect. -/
structure ScanOptions where
  hideStats : Bool

/-- Effect trace of `main` of darknet.js (lines 33-62) up to entry into its
orchestration loop: configuration check, optional tail window, log
disabling, then the `DarkscapeNavigator.exe` guard; past the guard the state
constructor reads the password file, an info line is logged and the loop is
entered (`mainBody`). -/
def darknetMainPrefix (options : Option DarknetOptions) (hasNavigator : Bool) : List Eff :=
  match options with
  | none => []
  | some o =>
    (if o.tail then [Eff.tail] else []) ++ [Eff.disableLogs] ++
    (if hasNavigator then
      [Eff.fileRead darknetPasswordsFile,
       Eff.logInfo "INFO: Darknet orchestrator starting...", Eff.mainBody]
    else
      [Eff.logError
        "ERROR: DarkscapeNavigator.exe not found. Purchase it from the darkweb to access the darknet."])

/-- Effect trace of `main` of darknet-scan.js (lines 13-21) up to its body:
the `DarkscapeNavigator.exe` guard, then the scan-and-render body
(`mainBody`). -/
def darknetScanMainPrefix (_options : ScanOptions) (hasNavigator : Bool) : List Eff :=
  if hasNavigator then [Eff.mainBody]
  else [Eff.logError "ERROR: DarkscapeNavigator.exe required. Buy from darkweb."]

/-- C7: when `DarkscapeNavigator.exe` is absent, both `main`s emit exactly one
error message, perform no darknet operation, and never reach their main
logic. -/
theorem darknet_mains_navigator_guard (o : DarknetOptions) (so : ScanOptions) :
    (darknetMainPrefix (some o) false).countP (fun e => e.isError) = 1 ∧
    (darknetMainPrefix (some o) false).all (fun e => !e.isDnet && !e.isMainBody) = true ∧
    (darknetScanMainPrefix so false).countP (fun e => e.isError) = 1 ∧
    (darknetScanMainPrefix so false).all (fun e => !e.isDnet && !e.isMainBody) = true := by
  obtain ⟨tl⟩ := o
  obtain ⟨hs⟩ := so
  cases tl <;> cases hs <;> decide

/-! ## C2: the try/catch main loops

All three long-running scripts share the same loop shape
(darknet.js 53-62, ipvgo.js 80-96, corporation.js 71-79):

```
while (true) {
    try { <one iteration of work> }
    catch (err) { log(ns, "<warning prefix>" + err, false, 'warning'); }
    await ns.sleep(interval);
}
```

The iteration body (`state.refresh` + `orchestrateDarknet`, `playGo` /
`resetBoardState`, `runCorpCycle`) is abstracted as a function
`body : σ → Except (String × σ) σ`: on success it yields the next loop state,
on a thrown error it yields the error text together with the state as the
body left it at the throw point (JS mutations before the throw persist).  The
loop is run for `fuel` iterations and the emitted warning/sleep events are
collected. -/

/-- An observable event of one loop iteration. -/
inductive LoopEvent where
  | warn (msg : String)
  | sleep (ms : ℚ)
  deriving DecidableEq, Repr

/-- Is this event a warning log? -/
def LoopEvent.isWarn : LoopEvent → Bool
  | .warn _ => true
  | _ => false

/-- Is this event a sleep? -/
def LoopEvent.isSleep : LoopEvent → Bool
  | .sleep _ => true
  | _ => false

/-- `fuel` iterations of a `try { body } catch { log warning } sleep(interval)`
loop: the catch branch only logs `warnMsg` applied to the error text and keeps
the state the body left behind; every iteration ends with a sleep. -/
def mainLoopCatch {σ : Type} (warnMsg : String → String) (interval : ℚ)
    (body : σ → Except (String × σ) σ) : Nat → σ → σ × List LoopEvent
  | 0, s => (s, [])
  | n + 1, s =>
    let step : σ × List LoopEvent :=
      match body s with
      | .ok t => (t, [])
      | .error (e, t) => (t, [.warn (warnMsg e)])
    let rest := mainLoopCatch warnMsg interval body n step.1
    (rest.1, step.2 ++ [.sleep interval] ++ rest.2)

/-- The state effect of one iteration body, errors included: the state the
body hands to the rest of the loop whether it returns or throws. -/
def stepState {σ : Type} (body : σ → Except (String × σ) σ) (s : σ) : σ :=
  match body s with
  | .ok t => t
  | .error (_, t) => t

/-- The darknet.js main loop (lines 53-62), warning prefix from line 58;
the interval is the `--interval` option. -/
def darknetMainLoop {σ : Type} (interval : ℚ) (body : σ → Except (String × σ) σ) :
    Nat → σ → σ × List LoopEvent :=
  mainLoopCatch (fun e => "WARNING: Darknet orchestrator encountered error: " ++ e)
    interval body

/-- The ipvgo.js main loop (lines 80-96), warning prefix from line 91;
`interval` constant 1000 (line 27). -/
def ipvgoMainLoop {σ : Type} (body : σ → Except (String × σ) σ) :
    Nat → σ → σ × List LoopEvent :=
  mainLoopCatch
    (fun e => "WARNING: ipvgo.js Caught (and suppressed) an unexpected error in the main loop:\n" ++ e)
    1000 body

/-- The corporation.js main loop (lines 71-79), warning prefix from line 75;
sleep 1000 (line 77). -/
def corporationMainLoop {σ : Type} (body : σ → Except (String × σ) σ) :
    Nat → σ → σ × List LoopEvent :=
  mainLoopCatch (fun e => "Corp cycle error: " ++ e) 1000 body

/-- Behaviour of the generic catch-and-continue loop: the final state is
exactly `fuel` applications of the body's own state effect (the handler never
changes state), every iteration sleeps (the loop never stops early on an
error), and nothing louder than a warning is emitted. -/
theorem mainLoopCatch_spec {σ : Type} (warnMsg : String → String) (interval : ℚ)
    (body : σ → Except (String × σ) σ) :
    ∀ (fuel : Nat) (s : σ),
      (mainLoopCatch warnMsg interval body fuel s).1 = (stepState body)^[fuel] s ∧
      (mainLoopCatch warnMsg interval body fuel s).2.countP (fun e => e.isSleep) = fuel ∧
      (mainLoopCatch warnMsg interval body fuel s).2.all
        (fun e => e.isWarn || e.isSleep) = true := by
  intro fuel
  induction fuel with
  | zero =>
    intro s
    simp [mainLoopCatch]
  | succ n ih =>
    intro s
    have hiter : (stepState body)^[n + 1] s = (stepState body)^[n] (stepState body s) :=
      Function.iterate_succ_apply (stepState body) n s
    rcases hbs : body s with et | t
    · obtain ⟨e, t⟩ := et
      have h1 := ih t
      simp only [mainLoopCatch, hbs]
      refine ⟨?_, ?_, ?_⟩
      · rw [hiter]
        simpa [stepState, hbs] using h1.1
      · simpa [List.countP_append, LoopEvent.isSleep, LoopEvent.isWarn] using h1.2.1
      · simpa [List.all_append, LoopEvent.isSleep, LoopEvent.isWarn] using h1.2.2
    · have h1 := ih t
      simp only [mainLoopCatch, hbs]
      refine ⟨?_, ?_, ?_⟩
      · rw [hiter]
        simpa [stepState, hbs] using h1.1
      · simpa [List.countP_append, LoopEvent.isSleep, LoopEvent.isWarn] using h1.2.1
      · simpa [List.all_append, LoopEvent.isSleep, LoopEvent.isWarn] using h1.2.2

/-- C2: in all three scripts' main loops, an error thrown by an iteration body
is caught, at most a warning is logged (all events are warnings or sleeps),
the loop state is exactly what the body produced — the handler changes
nothing — and the loop goes on to the next iteration after its sleep in every
one of `fuel` iterations; no error escapes (the loop is a total function into
state × events). -/
theorem mainLoops_catch_and_continue {σ : Type} (interval : ℚ)
    (body : σ → Except (String × σ) σ) (fuel : Nat) (s : σ) :
    ((darknetMainLoop interval body fuel s).1 = (stepState body)^[fuel] s ∧
      (darknetMainLoop interval body fuel s).2.countP (fun e => e.isSleep) = fuel ∧
      (darknetMainLoop interval body fuel s).2.all (fun e => e.isWarn || e.isSleep) = true) ∧
    ((ipvgoMainLoop body fuel s).1 = (stepState body)^[fuel] s ∧
      (ipvgoMainLoop body fuel s).2.countP (fun e => e.isSleep) = fuel ∧
      (ipvgoMainLoop body fuel s).2.all (fun e => e.isWarn || e.isSleep) = true) ∧
    ((corporationMainLoop body fuel s).1 = (stepState body)^[fuel] s ∧
      (corporationMainLoop body fuel s).2.countP (fun e => e.isSleep) = fuel ∧
      (corporationMainLoop body fuel s).2.all (fun e => e.isWarn || e.isSleep) = true) :=
  ⟨mainLoopCatch_spec _ interval body fuel s,
   mainLoopCatch_spec _ 1000 body fuel s,
   mainLoopCatch_spec _ 1000 body fuel s⟩

/-! ## C1: move selection in ipvgo.js

The board state (`ns.go.getBoardState()`) is an array of strings whose
characters are `'X'` (own pieces), `'O'`, `'.'` and `'#'`; `validMoves` is a
boolean matrix.  `playGo` (lines 101-130) picks `getGrowMove` if it found a
move and `getRandomMove` otherwise (`growX ?? randX`); both helpers collect
candidate points `(x, y)` that are valid moves and not "reserved"
(`x % 2 || y % 2` — both coordinates even is reserved), `getGrowMove`
additionally requiring a neighbouring `'X'`; both then index the collected
list at `Math.floor(Math.random() * length)` and fall back to `[]` when the
list is empty.  The random index is abstracted as a parameter. -/

/-- A Go board as handed out by the game: one string per column. -/
abbrev GoBoard := List String

/-- JS `board[x]?.[y]` / `board[x][y]` character access (out of range and
negative indices give `undefined`). -/
def boardCharAt (board : GoBoard) (x y : Int) : Option Char :=
  if x < 0 ∨ y < 0 then none
  else match board.get? x.toNat with
    | none => none
    | some row => row.data.get? y.toNat

/-- `getNeighbors(board, x, y)` of ipvgo.js (192-199): north, east, south,
west. -/
def getNeighbors (board : GoBoard) (x y : Int) : List (Option Char) :=
  [boardCharAt board (x + 1) y, boardCharAt board x (y + 1),
   boardCharAt board (x - 1) y, boardCharAt board x (y - 1)]

/-- `const size = board[0].length` (ipvgo.js 138/164). -/
def goBoardSize (board : GoBoard) : Nat := (board.headD "").length

/-- `validMoves[x][y]` truthiness (out-of-range access is `undefined`, which
is falsy). -/
def validAt (validMoves : List (List Bool)) (x y : Nat) : Bool :=
  (validMoves.getD x []).getD y false

/-- `x % 2 || y % 2` of ipvgo.js (146/172): the point is not one of the
reserved even-even spaces. -/
def isNotReservedSpace (x y : Nat) : Bool :=
  x % 2 ≠ 0 || y % 2 ≠ 0

/-- `neighbors.includes("X")` (ipvgo.js 176). -/
def hasFriendlyNeighbor (board : GoBoard) (x y : Nat) : Bool :=
  (getNeighbors board x y).any (fun c => c == some 'X')

/-- The `moveOptions` list collected by `getRandomMove` (ipvgo.js 136-153):
all valid, non-reserved points in row-major order. -/
def randomMoveOptions (board : GoBoard) (validMoves : List (List Bool)) : List (Nat × Nat) :=
  (List.range (goBoardSize board)).flatMap (fun x =>
    (List.range (goBoardSize board)).filterMap (fun y =>
      if validAt validMoves x y && isNotReservedSpace x y then some (x, y) else none))

/-- The `moveOptions` list collected by `getGrowMove` (ipvgo.js 162-182):
valid, non-reserved points adjacent to a friendly piece. -/
def growMoveOptions (board : GoBoard) (validMoves : List (List Bool)) : List (Nat × Nat) :=
  (List.range (goBoardSize board)).flatMap (fun x =>
    (List.range (goBoardSize board)).filterMap (fun y =>
      if validAt validMoves x y && isNotReservedSpace x y && hasFriendlyNeighbor board x y
      then some (x, y) else none))

/-- `moveOptions[randomIndex] ?? []` (ipvgo.js 156/186): the candidate at the
random index, nothing when the list is empty. -/
def pickMove (opts : List (Nat × Nat)) (randomIndex : Nat) : Option (Nat × Nat) :=
  opts.get? randomIndex

/-- The move `playGo` submits in one pass (ipvgo.js 104-120):
`const [growX, growY] = getGrowMove(...); const [randX, randY] = getRandomMove(...);
const x = growX ?? randX; const y = growY ?? randY;` — the grow move when one
was found, else the random move, else pass (`none`).  `i` and `j` are the two
`Math.floor(Math.random() * length)` draws. -/
def selectGoMove (board : GoBoard) (validMoves : List (List Bool)) (i j : Nat) :
    Option (Nat × Nat) :=
  match pickMove (growMoveOptions board validMoves) i with
  | some m => some m
  | none => pickMove (randomMoveOptions board validMoves) j

/-- C1 counterexample: on a 1×1 board whose single point (0,0) is a legal
move, the engine selects no move at all (it passes), because (0,0) is a
reserved space — so the move played is not obtained by ranking the legal
candidate moves and playing a maximal-rank one, under any ranking, and no
chain/liberty analysis is involved. -/
theorem selectGoMove_passes_despite_legal_move :
    ([[true]] : List (List Bool)).any (fun row => row.any id) = true ∧
    selectGoMove ["."] [[true]] 0 0 = none := by
  decide

/-- C1 amended: whenever `playGo` plays a move at all, that move is a valid,
non-reserved point; when any grow candidate exists (and the random draw is in
range, as `Math.floor(Math.random()*length)` always is), the move played is a
grow candidate — a point adjacent to a friendly `'X'` — and when none exists
it is one of the random candidates.  Selection within each class is by random
index, not by a chain/liberty ranking, and the engine passes when no valid
non-reserved point exists even if legal (reserved) moves remain. -/
theorem selectGoMove_characterization (board : GoBoard) (validMoves : List (List Bool))
    (i j x y : Nat)
    (hi : growMoveOptions board validMoves ≠ [] → i < (growMoveOptions board validMoves).length)
    (hsel : selectGoMove board validMoves i j = some (x, y)) :
    validAt validMoves x y = true ∧ isNotReservedSpace x y = true ∧
    (growMoveOptions board validMoves ≠ [] →
      hasFriendlyNeighbor board x y = true ∧ (x, y) ∈ growMoveOptions board validMoves) ∧
    (growMoveOptions board validMoves = [] →
      (x, y) ∈ randomMoveOptions board validMoves) := by
  have hmem_rand : ∀ p : Nat × Nat, p ∈ randomMoveOptions board validMoves →
      validAt validMoves p.1 p.2 = true ∧ isNotReservedSpace p.1 p.2 = true := by
    intro p hp
    simp only [randomMoveOptions, List.mem_flatMap, List.mem_filterMap, List.mem_range] at hp
    obtain ⟨a, _, b, _, hab⟩ := hp
    by_cases hc : validAt validMoves a b && isNotReservedSpace a b
    · rw [if_pos hc] at hab
      cases hab
      exact ⟨(Bool.and_eq_true _ _).mp hc |>.1, (Bool.and_eq_true _ _).mp hc |>.2⟩
    · rw [if_neg hc] at hab
      exact absurd hab (by simp)
  have hmem_grow : ∀ p : Nat × Nat, p ∈ growMoveOptions board validMoves →
      validAt validMoves p.1 p.2 = true ∧ isNotReservedSpace p.1 p.2 = true ∧
      hasFriendlyNeighbor board p.1 p.2 = true := by
    intro p hp
    simp only [growMoveOptions, List.mem_flatMap, List.mem_filterMap, List.mem_range] at hp
    obtain ⟨a, _, b, _, hab⟩ := hp
    by_cases hc : validAt validMoves a b && isNotReservedSpace a b && hasFriendlyNeighbor board a b
    · rw [if_pos hc] at hab
      cases hab
      have h1 := (Bool.and_eq_true _ _).mp hc
      have h2 := (Bool.and_eq_true _ _).mp h1.1
      exact ⟨h2.1, h2.2, h1.2⟩
    · rw [if_neg hc] at hab
      exact absurd hab (by simp)
  rw [selectGoMove] at hsel
  cases hpick : pickMove (growMoveOptions board validMoves) i with
  | some m =>
    rw [hpick] at hsel
    simp only [Option.some.injEq] at hsel
    subst hsel
    have hmem : (x, y) ∈ growMoveOptions board validMoves := List.get?_mem hpick
    obtain ⟨hv, hr, hf⟩ := hmem_grow (x, y) hmem
    refine ⟨hv, hr, fun _ => ⟨hf, hmem⟩, fun hnil => ?_⟩
    rw [hnil] at hmem
    exact absurd hmem (List.not_mem_nil (x, y))
  | none =>
    rw [hpick] at hsel
    have hnil : growMoveOptions board validMoves = [] := by
      by_contra hne
      have hlt := hi hne
      have := List.get?_eq_none.mp hpick
      omega
    have hmem : (x, y) ∈ randomMoveOptions board validMoves := List.get?_mem hsel
    obtain ⟨hv, hr⟩ := hmem_rand (x, y) hmem
    exact ⟨hv, hr, fun hne => absurd hnil hne, fun _ => hmem⟩

/-- Witness for the amended C1 on a 2×2 board with a friendly stone at (0,0)
and every point a valid move: the selected move (0,1) is valid, unreserved
and adjacent to the friendly stone. -/
theorem selectGoMove_characterization_witness :
    (growMoveOptions ["X.", ".."] [[true, true], [true, true]] ≠ [] →
      0 < (growMoveOptions ["X.", ".."] [[true, true], [true, true]]).length) ∧
    (validAt [[true, true], [true, true]] 0 1 = true ∧
      isNotReservedSpace 0 1 = true ∧
      (growMoveOptions ["X.", ".."] [[true, true], [true, true]] ≠ [] →
        hasFriendlyNeighbor ["X.", ".."] 0 1 = true ∧
        (0, 1) ∈ growMoveOptions ["X.", ".."] [[true, true], [true, true]]) ∧
      (growMoveOptions ["X.", ".."] [[true, true], [true, true]] = [] →
        (0, 1) ∈ randomMoveOptions ["X.", ".."] [[true, true], [true, true]])) :=
  ⟨fun _ => by decide,
   selectGoMove_characterization ["X.", ".."] [[true, true], [true, true]] 0 0 0 1
     (fun _ => by decide) (by decide)⟩

/-! ## C6: calculateOptimalPrice of corp-helpers.js (lines 419-494)

This function feeds `Math.pow` with values that can be negative, and in
JavaScript `Math.pow` of a negative base and a non-integer exponent is `NaN`,
which then propagates through the arithmetic and the `Math.max` and makes
every `<=`/`>` comparison false.  To be faithful to those paths, the number
semantics is embedded as `JsNum`: an IEEE-style value that is `NaN`, `±∞` or
an exact real.  Finite arithmetic is exact (the claims are about exact
arithmetic, not rounding) and the sign of zero is not distinguished; special
values follow the ECMAScript `Number` operations.

Optional record fields (`item.stats?.quality`, `item.demand ?? 50`,
`office.employeeProductionByJob?.Business`, the `productionAmount` parameter
defaulted to `null`) are `Option ℝ`; JS `x || y` on numbers is `jsOr`. -/

/-- A JavaScript number: `NaN`, `±Infinity`, or a finite value (exact, with
the sign of zero not distinguished). -/
inductive JsNum where
  | nan
  | inf
  | ninf
  | fin (x : ℝ)

/-- JS `x + y` (ECMAScript Number::add; finite arithmetic exact). -/
noncomputable def jsAdd : JsNum → JsNum → JsNum
  | .nan, _ => .nan
  | _, .nan => .nan
  | .inf, .ninf => .nan
  | .ninf, .inf => .nan
  | .inf, _ => .inf
  | _, .inf => .inf
  | .ninf, _ => .ninf
  | _, .ninf => .ninf
  | .fin x, .fin y => .fin (x + y)

/-- JS `x * y` (ECMAScript Number::multiply; `±∞ * 0 = NaN`). -/
noncomputable def jsMul : JsNum → JsNum → JsNum
  | .nan, _ => .nan
  | _, .nan => .nan
  | .inf, .inf => .inf
  | .inf, .ninf => .ninf
  | .ninf, .inf => .ninf
  | .ninf, .ninf => .inf
  | .inf, .fin y => if y = 0 then .nan else if 0 < y then .inf else .ninf
  | .fin x, .inf => if x = 0 then .nan else if 0 < x then .inf else .ninf
  | .ninf, .fin y => if y = 0 then .nan else if 0 < y then .ninf else .inf
  | .fin x, .ninf => if x = 0 then .nan else if 0 < x then .ninf else .inf
  | .fin x, .fin y => .fin (x * y)

/-- JS `x / y` (ECMAScript Number::divide; `0/0 = NaN`, `x/0 = ±∞` for
`x ≠ 0` with the zero taken as `+0`, `±∞/±∞ = NaN`). -/
noncomputable def jsDiv : JsNum → JsNum → JsNum
  | .nan, _ => .nan
  | _, .nan => .nan
  | .inf, .inf => .nan
  | .inf, .ninf => .nan
  | .ninf, .inf => .nan
  | .ninf, .ninf => .nan
  | .inf, .fin y => if 0 ≤ y then .inf else .ninf
  | .ninf, .fin y => if 0 ≤ y then .ninf else .inf
  | .fin _, .inf => .fin 0
  | .fin _, .ninf => .fin 0
  | .fin x, .fin y =>
    if y = 0 then (if x = 0 then .nan else if 0 < x then .inf else .ninf)
    else .fin (x / y)

/-- JS `Math.max(x, y)`: `NaN` if either argument is `NaN`. -/
noncomputable def jsMax : JsNum → JsNum → JsNum
  | .nan, _ => .nan
  | _, .nan => .nan
  | .inf, _ => .inf
  | _, .inf => .inf
  | .ninf, b => b
  | a, .ninf => a
  | .fin x, .fin y => .fin (max x y)

/-- JS `Math.sqrt(x)`: `NaN` for negative arguments (and `-∞`). -/
noncomputable def jsSqrt : JsNum → JsNum
  | .nan => .nan
  | .inf => .inf
  | .ninf => .nan
  | .fin x => if x < 0 then .nan else .fin (Real.sqrt x)

/-- JS `x <= y`: false whenever either side is `NaN`. -/
noncomputable def jsLe : JsNum → JsNum → Bool
  | .nan, _ => false
  | _, .nan => false
  | .ninf, _ => true
  | .inf, .inf => true
  | .inf, _ => false
  | .fin _, .inf => true
  | .fin _, .ninf => false
  | .fin x, .fin y => decide (x ≤ y)

/-- JS `x < y`: false whenever either side is `NaN`. -/
noncomputable def jsLt : JsNum → JsNum → Bool
  | .nan, _ => false
  | _, .nan => false
  | .ninf, .ninf => false
  | .ninf, _ => true
  | .inf, _ => false
  | .fin _, .inf => true
  | .fin _, .ninf => false
  | .fin x, .fin y => decide (x < y)

/-- JS `Math.pow(x, e)` for finite arguments (ECMAScript
Number::exponentiate): exponent `0` gives `1`; `0` to a positive power is
`0`, to a negative power `+∞`; a positive base gives the exact real power; a
negative base gives the exact integer power when the exponent is an integer
and `NaN` otherwise. -/
noncomputable def jsPow (x e : ℝ) : JsNum :=
  if e = 0 then .fin 1
  else if x = 0 then (if 0 < e then .fin 0 else .inf)
  else if 0 < x then .fin (x ^ e)
  else if (⌊e⌋ : ℝ) = e then .fin (x ^ ⌊e⌋) else .nan

/-- JS `x || y` on numbers: `y` when `x` is `0`, else `x`. -/
noncomputable def jsOr (x y : ℝ) : ℝ := if x = 0 then y else x

/-- JS `x?.f || y`: `y` when the field is missing or `0`, else its value. -/
noncomputable def jsOrOpt (x : Option ℝ) (y : ℝ) : ℝ :=
  match x with
  | none => y
  | some v => jsOr v y

/-- The slice of a material/product record that `calculateOptimalPrice`
reads.  `marketPrice`/`quality` are material fields,
`productionCost`/`effectiveRating`/`statsQuality` product fields.  The game
API hands out finite numbers, so the fields are reals. -/
structure CorpItem where
  marketPrice : ℝ
  quality : ℝ
  productionCost : ℝ
  effectiveRating : ℝ
  statsQuality : Option ℝ
  demand : Option ℝ
  competition : Option ℝ
  stored : ℝ
  productionAmount : ℝ

/-- The slice of a division record that `calculateOptimalPrice` reads. -/
structure CorpDivision where
  type : String
  awareness : ℝ
  popularity : ℝ

/-- The slice of an office record that `calculateOptimalPrice` reads
(`employeeProductionByJob?.Business`). -/
structure CorpOffice where
  businessProduction : Option ℝ

/-- The `marketPrice` variable of `calculateOptimalPrice` (lines 430/438):
`item.productionCost || 0` for a product, `item.marketPrice || 1` for a
material. -/
noncomputable def usedMarketPrice (item : CorpItem) (isProduct : Bool) : ℝ :=
  if isProduct then jsOr item.productionCost 0 else jsOr item.marketPrice 1

/-- The `markupLimit` variable of `calculateOptimalPrice` (lines 431-441):
`effectiveRating / markup` for a product (with
`markup = 100 / (1.01 * Math.pow(quality + 0.001, 0.65) * 0.2)`), `quality`
for a material. -/
noncomputable def usedMarkupLimit (item : CorpItem) (isProduct : Bool) : JsNum :=
  if isProduct then
    jsDiv (.fin (max (jsOr item.effectiveRating 0.001) 0.001))
      (jsDiv (.fin 100)
        (jsMul (jsMul (.fin 1.01) (jsPow (jsOrOpt item.statsQuality 1 + 0.001) 0.65)) (.fin 0.2)))
  else .fin (max (jsOr item.quality 0.001) 0.001)

/-- The `qualityFactor` variable of `calculateOptimalPrice` (lines 432/440). -/
noncomputable def usedQualityFactor (item : CorpItem) (isProduct : Bool) : JsNum :=
  if isProduct then
    jsMul (.fin 0.5) (jsPow (max (jsOr item.effectiveRating 0.001) 0.001) 0.65)
  else .fin (max (jsOr item.quality 0.001) 0.001 + 0.001)

/-- The `businessFactor` variable (lines 446-447):
`Math.pow(1 + businessProd, 0.26) + (1 + businessProd) / 10000`. -/
noncomputable def usedBusinessFactor (office : CorpOffice) : JsNum :=
  jsAdd (jsPow (1 + jsOrOpt office.businessProduction 0) 0.26)
    (.fin ((1 + jsOrOpt office.businessProduction 0) / 10000))

/-- The `marketFactor` variable (lines 450-452). -/
noncomputable def usedMarketFactor (item : CorpItem) : ℝ :=
  max 0.1 (item.demand.getD 50 * (100 - item.competition.getD 50) / 100)

/-- The `ratio` variable (line 457): `awareness > 0 ? popularity / awareness : 0.01`,
with `awareness = divData.awareness + 1` and `popularity = divData.popularity + 1`. -/
noncomputable def usedRatio (divData : CorpDivision) : ℝ :=
  if divData.awareness + 1 > 0 then (divData.popularity + 1) / (divData.awareness + 1) else 0.01

/-- The `advertisingFactor` variable (lines 458-460). -/
noncomputable def usedAdvertisingFactor (divData : CorpDivision) (advFactor : ℚ) : JsNum :=
  jsMul
    (jsMul (jsPow (divData.awareness + 1) (advFactor : ℝ))
      (jsPow (divData.popularity + 1) (advFactor : ℝ)))
    (jsPow (usedRatio divData) 0.85)

/-- The `sellAmt` variable (line 467):
`productionAmount || item.productionAmount || (item.stored / 10) || 1`. -/
noncomputable def usedSellAmt (item : CorpItem) (productionAmount : Option ℝ) : ℝ :=
  jsOr (productionAmount.getD 0) (jsOr item.productionAmount (jsOr (item.stored / 10) 1))

/-- The `sqrtDenominator` variable (line 470):
`qualityFactor * marketFactor * businessFactor * salesMult * advertisingFactor`
with `salesMult = 1`. -/
noncomputable def usedSqrtDenominator (item : CorpItem) (divData : CorpDivision)
    (office : CorpOffice) (isProduct : Bool) (advFactor : ℚ) : JsNum :=
  jsMul
    (jsMul
      (jsMul (jsMul (usedQualityFactor item isProduct) (.fin (usedMarketFactor item)))
        (usedBusinessFactor office))
      (.fin 1))
    (usedAdvertisingFactor divData advFactor)

/-- `calculateOptimalPrice(item, divData, office, isProduct, productionAmount)`
of `corp-helpers.js` (419-494), in JS number semantics. -/
noncomputable def calculateOptimalPrice (item : CorpItem) (divData : CorpDivision)
    (office : CorpOffice) (isProduct : Bool) (productionAmount : Option ℝ) : JsNum :=
  match INDUSTRIES divData.type with
  | none => .fin (jsOr item.marketPrice 1)
  | some industry =>
    let marketPrice := usedMarketPrice item isProduct
    let markupLimit := usedMarkupLimit item isProduct
    let awareness := divData.awareness + 1
    let sellAmt := usedSellAmt item productionAmount
    let sqrtDenominator := usedSqrtDenominator item divData office isProduct
      industry.advertisingFactor
    if jsLe sqrtDenominator (.fin 0) || decide (sellAmt ≤ 0) then
      jsAdd (.fin marketPrice) markupLimit
    else
      let denominator := jsSqrt (jsDiv (.fin sellAmt) sqrtDenominator)
      if jsLe denominator (.fin 0) then jsAdd (.fin marketPrice) markupLimit
      else
        let optimalPrice := jsAdd (jsDiv markupLimit denominator) (.fin marketPrice)
        if jsLt (.fin (marketPrice * 2)) optimalPrice && decide (awareness < 10) then
          .fin marketPrice
        else jsMax optimalPrice (.fin marketPrice)

/-- `jsAdd` on finite values is exact addition. -/
theorem jsAdd_fin_fin (x y : ℝ) : jsAdd (.fin x) (.fin y) = .fin (x + y) := rfl

/-- `jsAdd` propagates `NaN` from the right. -/
theorem jsAdd_nan_right (a : JsNum) : jsAdd a .nan = .nan := by cases a <;> rfl

/-- `jsMul` on finite values is exact multiplication. -/
theorem jsMul_fin_fin (x y : ℝ) : jsMul (.fin x) (.fin y) = .fin (x * y) := rfl

/-- `jsMul` propagates `NaN` from the right. -/
theorem jsMul_nan_right (a : JsNum) : jsMul a .nan = .nan := by cases a <;> rfl

/-- `jsMul` propagates `NaN` from the left. -/
theorem jsMul_nan_left (a : JsNum) : jsMul .nan a = .nan := by cases a <;> rfl

/-- `jsDiv` propagates `NaN` from the right. -/
theorem jsDiv_nan_right (a : JsNum) : jsDiv a .nan = .nan := by cases a <;> rfl

/-- `jsDiv` on finite values with a nonzero divisor is exact division. -/
theorem jsDiv_fin_fin (x : ℝ) {y : ℝ} (hy : y ≠ 0) :
    jsDiv (.fin x) (.fin y) = .fin (x / y) := by
  simp [jsDiv, hy]

/-- `jsMax` on finite values is `max`. -/
theorem jsMax_fin_fin (x y : ℝ) : jsMax (.fin x) (.fin y) = .fin (max x y) := rfl

/-- `jsSqrt` of a finite nonnegative value is the exact square root. -/
theorem jsSqrt_fin_nonneg {x : ℝ} (hx : 0 ≤ x) : jsSqrt (.fin x) = .fin (Real.sqrt x) := by
  simp [jsSqrt, not_lt.mpr hx]

/-- `jsLe` on finite values is the real comparison. -/
theorem jsLe_fin_fin (x y : ℝ) : jsLe (.fin x) (.fin y) = decide (x ≤ y) := rfl

/-- `jsLt` on finite values is the real comparison. -/
theorem jsLt_fin_fin (x y : ℝ) : jsLt (.fin x) (.fin y) = decide (x < y) := rfl

/-- `Math.pow` of a positive base is the exact real power (also at exponent
0, where both sides are 1). -/
theorem jsPow_of_pos {x : ℝ} (hx : 0 < x) (e : ℝ) : jsPow x e = .fin (x ^ e) := by
  rw [jsPow]
  by_cases he : e = 0
  · subst he
    rw [if_pos rfl, Real.rpow_zero]
  · rw [if_neg he, if_neg (ne_of_gt hx), if_pos hx]

/-- `Math.pow(0, e)` for positive `e` is 0. -/
theorem jsPow_zero_of_pos {e : ℝ} (he : 0 < e) : jsPow 0 e = .fin 0 := by
  rw [jsPow, if_neg (ne_of_gt he), if_pos rfl, if_pos he]

/-- `Math.pow` of a negative base and a non-integer exponent is `NaN`. -/
theorem jsPow_nan_of_neg {x e : ℝ} (hx : x < 0) (he : (⌊e⌋ : ℝ) ≠ e) : jsPow x e = .nan := by
  have he0 : e ≠ 0 := by
    intro h
    subst h
    simp at he
  rw [jsPow, if_neg he0, if_neg (ne_of_lt hx), if_neg (not_lt.mpr (le_of_lt hx)), if_neg he]

/-- `Math.pow` of a nonnegative base and a positive exponent is a finite
nonnegative value. -/
theorem jsPow_fin_of_nonneg {x e : ℝ} (hx : 0 ≤ x) (he : 0 < e) :
    ∃ v, jsPow x e = .fin v ∧ 0 ≤ v := by
  rcases eq_or_lt_of_le hx with h | h
  · exact ⟨0, by rw [← h]; exact jsPow_zero_of_pos he, le_refl 0⟩
  · exact ⟨x ^ e, jsPow_of_pos h e, le_of_lt (Real.rpow_pos_of_pos h e)⟩

/-- The product item of the C6 counterexample: positive production cost but a
negative `stats.quality`, and a negative `productionAmount` that routes the
call into the `sellAmt <= 0` fallback. -/
noncomputable def cexItem : CorpItem :=
  { marketPrice := 0, quality := 0, productionCost := 1, effectiveRating := 1
    statsQuality := some (-1.001), demand := none, competition := none
    stored := 0, productionAmount := -5 }

/-- The division of the C6 counterexample: a Tobacco division. -/
def cexDivision : CorpDivision := { type := "Tobacco", awareness := 0, popularity := 0 }

/-- The office of the C6 counterexample. -/
def cexOffice : CorpOffice := { businessProduction := none }

/-- `0.65` is not an integer. -/
theorem floor_065_ne : ((⌊(0.65 : ℝ)⌋ : ℝ)) ≠ 0.65 := by
  have h : ⌊(0.65 : ℝ)⌋ = 0 := by
    rw [Int.floor_eq_zero_iff]
    constructor <;> norm_num
  rw [h]
  norm_num

/-- C6 counterexample: for the product `cexItem` in a Tobacco division the
market price used (`productionCost = 1`) is positive, yet
`calculateOptimalPrice` returns `NaN` — not a price at all, and in
particular not a price at least the market price: `Math.pow(-1, 0.65)` is
`NaN`, the markup and `markupLimit` are `NaN`, and the `sellAmt <= 0`
fallback returns `marketPrice + NaN = NaN`. -/
theorem calculateOptimalPrice_below_market :
    0 < usedMarketPrice cexItem true ∧
    calculateOptimalPrice cexItem cexDivision cexOffice true none = JsNum.nan ∧
    ¬ ∃ y : ℝ, calculateOptimalPrice cexItem cexDivision cexOffice true none = JsNum.fin y ∧
        usedMarketPrice cexItem true ≤ y := by
  have hmp1 : usedMarketPrice cexItem true = 1 := by
    norm_num [usedMarketPrice, cexItem, jsOr]
  have hq : jsOrOpt cexItem.statsQuality 1 = -1.001 := by
    norm_num [cexItem, jsOrOpt, jsOr]
  have hml : usedMarkupLimit cexItem true = .nan := by
    rw [usedMarkupLimit, if_pos rfl, hq]
    rw [show (-1.001 : ℝ) + 0.001 = -1 by norm_num]
    rw [jsPow_nan_of_neg (by norm_num) floor_065_ne]
    rw [jsMul_nan_right, jsMul_nan_left, jsDiv_nan_right, jsDiv_nan_right]
  have hsell : usedSellAmt cexItem none = -5 := by
    norm_num [usedSellAmt, cexItem, jsOr]
  have hnan : calculateOptimalPrice cexItem cexDivision cexOffice true none = JsNum.nan := by
    rw [calculateOptimalPrice]
    rw [show INDUSTRIES cexDivision.type = some
        { name := "Tobacco", makesProducts := true
          inputMaterials := [("Plants", 1)]
          outputMaterials := []
          boostFactors := { realEstate := 0.15, hardware := 0.15, robots := 0.25, aiCores := 0.15 }
          scienceFactor := 0.75, advertisingFactor := 0.2 } from by simp [cexDivision, INDUSTRIES]]
    simp only
    rw [show decide (usedSellAmt cexItem none ≤ 0) = true from by rw [hsell]; norm_num]
    rw [Bool.or_true, if_pos rfl, hml, jsAdd_nan_right]
  refine ⟨by rw [hmp1]; norm_num, hnan, ?_⟩
  rintro ⟨y, hy, -⟩
  rw [hnan] at hy
  exact JsNum.noConfusion hy

/-- Every `INDUSTRIES` entry has a strictly positive advertising factor. -/
theorem INDUSTRIES_advertisingFactor_pos (key : String) (ind : Industry)
    (h : INDUSTRIES key = some ind) : 0 < ind.advertisingFactor := by
  rw [INDUSTRIES] at h
  split_ifs at h <;> cases h <;> norm_num

/-- When the product quality it uses is nonnegative, `markupLimit` is a
finite strictly positive value (for a material, unconditionally). -/
theorem usedMarkupLimit_fin_pos (item : CorpItem) (isProduct : Bool)
    (hq : isProduct = true → 0 ≤ jsOrOpt item.statsQuality 1) :
    ∃ ml, usedMarkupLimit item isProduct = .fin ml ∧ 0 < ml := by
  cases isProduct with
  | false =>
    refine ⟨max (jsOr item.quality 0.001) 0.001, ?_, ?_⟩
    · rw [usedMarkupLimit]
      simp
    · exact lt_of_lt_of_le (by norm_num) (le_max_right _ _)
  | true =>
    have hq' := hq rfl
    have hbase : (0 : ℝ) < jsOrOpt item.statsQuality 1 + 0.001 := by linarith
    have hrp : (0 : ℝ) < (jsOrOpt item.statsQuality 1 + 0.001) ^ (0.65 : ℝ) :=
      Real.rpow_pos_of_pos hbase _
    have hden : (0 : ℝ) < 1.01 * (jsOrOpt item.statsQuality 1 + 0.001) ^ (0.65 : ℝ) * 0.2 := by
      nlinarith
    have hmarkup : (0 : ℝ) <
        100 / (1.01 * (jsOrOpt item.statsQuality 1 + 0.001) ^ (0.65 : ℝ) * 0.2) :=
      div_pos (by norm_num) hden
    have her : (0 : ℝ) < max (jsOr item.effectiveRating 0.001) 0.001 :=
      lt_of_lt_of_le (by norm_num) (le_max_right _ _)
    refine ⟨_, ?_, div_pos her hmarkup⟩
    rw [usedMarkupLimit, if_pos rfl, jsPow_of_pos hbase, jsMul_fin_fin, jsMul_fin_fin,
      jsDiv_fin_fin _ (ne_of_gt hden), jsDiv_fin_fin _ (ne_of_gt hmarkup)]

/-- `qualityFactor` is always finite. -/
theorem usedQualityFactor_fin (item : CorpItem) (isProduct : Bool) :
    ∃ qf, usedQualityFactor item isProduct = .fin qf := by
  cases isProduct with
  | false =>
    refine ⟨max (jsOr item.quality 0.001) 0.001 + 0.001, ?_⟩
    rw [usedQualityFactor]
    simp
  | true =>
    have her : (0 : ℝ) < max (jsOr item.effectiveRating 0.001) 0.001 :=
      lt_of_lt_of_le (by norm_num) (le_max_right _ _)
    exact ⟨_, by rw [usedQualityFactor, if_pos rfl, jsPow_of_pos her, jsMul_fin_fin]⟩

/-- When the Business production is at least -1, `businessFactor` is finite. -/
theorem usedBusinessFactor_fin (office : CorpOffice)
    (hbp : 0 ≤ 1 + jsOrOpt office.businessProduction 0) :
    ∃ bf, usedBusinessFactor office = .fin bf := by
  obtain ⟨v, hv, -⟩ := jsPow_fin_of_nonneg hbp (show (0 : ℝ) < 0.26 by norm_num)
  exact ⟨_, by rw [usedBusinessFactor, hv, jsAdd_fin_fin]⟩

/-- When awareness and popularity are at least -1 and the advertising
exponent is positive, `advertisingFactor` is finite. -/
theorem usedAdvertisingFactor_fin (divData : CorpDivision) (advFactor : ℚ)
    (hf : 0 < (advFactor : ℝ)) (haw : 0 ≤ divData.awareness + 1)
    (hpop : 0 ≤ divData.popularity + 1) :
    ∃ af, usedAdvertisingFactor divData advFactor = .fin af := by
  obtain ⟨v1, hv1, -⟩ := jsPow_fin_of_nonneg haw hf
  obtain ⟨v2, hv2, -⟩ := jsPow_fin_of_nonneg hpop hf
  have hr : 0 ≤ usedRatio divData := by
    rw [usedRatio]
    split_ifs with h
    · exact div_nonneg hpop (le_of_lt h)
    · norm_num
  obtain ⟨v3, hv3, -⟩ := jsPow_fin_of_nonneg hr (show (0 : ℝ) < 0.85 by norm_num)
  exact ⟨_, by rw [usedAdvertisingFactor, hv1, hv2, hv3, jsMul_fin_fin, jsMul_fin_fin]⟩

/-- Under the no-`NaN` hypotheses, `sqrtDenominator` is finite. -/
theorem usedSqrtDenominator_fin (item : CorpItem) (divData : CorpDivision)
    (office : CorpOffice) (isProduct : Bool) (advFactor : ℚ)
    (hf : 0 < (advFactor : ℝ)) (hbp : 0 ≤ 1 + jsOrOpt office.businessProduction 0)
    (haw : 0 ≤ divData.awareness + 1) (hpop : 0 ≤ divData.popularity + 1) :
    ∃ S, usedSqrtDenominator item divData office isProduct advFactor = .fin S := by
  obtain ⟨qf, hqf⟩ := usedQualityFactor_fin item isProduct
  obtain ⟨bf, hbf⟩ := usedBusinessFactor_fin office hbp
  obtain ⟨af, haf⟩ := usedAdvertisingFactor_fin divData advFactor hf haw hpop
  exact ⟨_, by rw [usedSqrtDenominator, hqf, hbf, haf, jsMul_fin_fin, jsMul_fin_fin,
    jsMul_fin_fin, jsMul_fin_fin]⟩

/-- C6 amended: for every item, office and division whose type is a key of
`INDUSTRIES`, and on every branch, `calculateOptimalPrice` returns a (real)
price at least the market price it uses, provided that market price is
positive and the values handed to `Math.pow` are nonnegative — i.e. for a
product the `stats.quality` it uses (missing or zero treated as 1) is
nonnegative, the office's Business production is at least -1, and the
division's awareness and popularity are at least -1 — the conditions the
`NaN` counterexamples show are needed. -/
theorem calculateOptimalPrice_ge_market (item : CorpItem) (divData : CorpDivision)
    (office : CorpOffice) (isProduct : Bool) (productionAmount : Option ℝ)
    (hkey : (INDUSTRIES divData.type).isSome = true)
    (hmp : 0 < usedMarketPrice item isProduct)
    (hq : isProduct = true → 0 ≤ jsOrOpt item.statsQuality 1)
    (hbp : 0 ≤ 1 + jsOrOpt office.businessProduction 0)
    (haw : 0 ≤ divData.awareness + 1)
    (hpop : 0 ≤ divData.popularity + 1) :
    ∃ y : ℝ, calculateOptimalPrice item divData office isProduct productionAmount = JsNum.fin y ∧
      usedMarketPrice item isProduct ≤ y := by
  obtain ⟨ml, hml, hmlpos⟩ := usedMarkupLimit_fin_pos item isProduct hq
  rw [calculateOptimalPrice]
  cases hI : INDUSTRIES divData.type with
  | none =>
    rw [hI] at hkey
    exact absurd hkey (by simp)
  | some industry =>
    simp only
    have hf : 0 < (industry.advertisingFactor : ℝ) := by
      exact_mod_cast INDUSTRIES_advertisingFactor_pos _ _ hI
    obtain ⟨S, hS⟩ := usedSqrtDenominator_fin item divData office isProduct
      industry.advertisingFactor hf hbp haw hpop
    rw [hS, hml, jsLe_fin_fin]
    by_cases hS0 : S ≤ 0
    · rw [decide_eq_true hS0, Bool.true_or, if_pos rfl, jsAdd_fin_fin]
      exact ⟨_, rfl, by linarith⟩
    · rw [decide_eq_false hS0, Bool.false_or]
      by_cases hsell : usedSellAmt item productionAmount ≤ 0
      · rw [decide_eq_true hsell, if_pos rfl, jsAdd_fin_fin]
        exact ⟨_, rfl, by linarith⟩
      · rw [decide_eq_false hsell, if_neg Bool.false_ne_true]
        push_neg at hS0 hsell
        have hargpos : 0 < usedSellAmt item productionAmount / S := div_pos hsell hS0
        rw [jsDiv_fin_fin _ (ne_of_gt hS0), jsSqrt_fin_nonneg (le_of_lt hargpos),
          jsLe_fin_fin]
        have hdpos : 0 < Real.sqrt (usedSellAmt item productionAmount / S) :=
          Real.sqrt_pos.mpr hargpos
        rw [decide_eq_false (not_le.mpr hdpos), if_neg Bool.false_ne_true]
        rw [jsDiv_fin_fin _ (ne_of_gt hdpos), jsAdd_fin_fin, jsLt_fin_fin]
        by_cases hcmp : usedMarketPrice item isProduct * 2 <
            ml / Real.sqrt (usedSellAmt item productionAmount / S) +
              usedMarketPrice item isProduct
        · rw [decide_eq_true hcmp]
          by_cases haw10 : divData.awareness + 1 < 10
          · rw [decide_eq_true haw10, Bool.and_true, if_pos rfl]
            exact ⟨_, rfl, le_refl _⟩
          · rw [decide_eq_false haw10, Bool.and_false, if_neg Bool.false_ne_true,
              jsMax_fin_fin]
            exact ⟨_, rfl, le_max_right _ _⟩
        · rw [decide_eq_false hcmp, Bool.false_and, if_neg Bool.false_ne_true, jsMax_fin_fin]
          exact ⟨_, rfl, le_max_right _ _⟩

/-- Witness item for the amended C6: an ordinary material with market price 2
and quality 1. -/
noncomputable def witItem : CorpItem :=
  { marketPrice := 2, quality := 1, productionCost := 0, effectiveRating := 0
    statsQuality := none, demand := none, competition := none
    stored := 10, productionAmount := 0 }

/-- Witness division for the amended C6. -/
def witDivision : CorpDivision := { type := "Agriculture", awareness := 5, popularity := 5 }

/-- Witness office for the amended C6. -/
def witOffice : CorpOffice := { businessProduction := none }

/-- Witness for the amended C6 at the concrete material `witItem` in an
Agriculture division. -/
theorem calculateOptimalPrice_ge_market_witness :
    (INDUSTRIES witDivision.type).isSome = true ∧
    0 < usedMarketPrice witItem false ∧
    0 ≤ 1 + jsOrOpt witOffice.businessProduction 0 ∧
    0 ≤ witDivision.awareness + 1 ∧
    0 ≤ witDivision.popularity + 1 ∧
    (∃ y : ℝ, calculateOptimalPrice witItem witDivision witOffice false none = JsNum.fin y ∧
      usedMarketPrice witItem false ≤ y) :=
  ⟨by simp [witDivision, INDUSTRIES],
   by norm_num [usedMarketPrice, witItem, jsOr],
   by norm_num [witOffice, jsOrOpt, jsOr],
   by norm_num [witDivision],
   by norm_num [witDivision],
   calculateOptimalPrice_ge_market witItem witDivision witOffice false none
     (by simp [witDivision, INDUSTRIES])
     (by norm_num [usedMarketPrice, witItem, jsOr])
     (by simp)
     (by norm_num [witOffice, jsOrOpt, jsOr])
     (by norm_num [witDivision])
     (by norm_num [witDivision])⟩
